import Mathlib

/-!
Shallow embedding of the `grpctest` package (server.go): an in-memory gRPC
test server over a bufconn listener.  Go error values are `Option GoErr`
(`none` is Go's nil error).  The server lifecycle (sync.Once start guard,
background serve goroutine, serveDone channel, serveErr slot) is embedded as
an explicit state machine: each externally observable event is an `Op` and a
run is a fold of `applyOp` over a list of events, covering every
interleaving of the concurrent calls since each primitive is serialized by
the runtime (sync.Once, channel close, atomics).
-/

namespace Grpctest

/-- End values of a Go error: the grpc.ErrServerStopped sentinel or any other
distinct runtime error value. -/
inductive GoErr where
  | serverStopped : GoErr
  | other : Nat → GoErr
deriving DecidableEq, Repr

/-- Go error results: `none` is nil. -/
abbrev GoError := Option GoErr

/-- Go conversion `int32(n)` on a (64-bit) int: wrap into the int32 range. -/
def int32Wrap (n : Int) : Int := (n + 2 ^ 31) % 2 ^ 32 - 2 ^ 31

/-- The package-level configuration: `var bufferSize int32`, read and written
atomically.  The field holds the stored int32 value. -/
structure Config where
  bufferSize : Int
deriving DecidableEq, Repr

/-- Initial value `1 << 20` (1 MiB) of the package-level bufferSize. -/
def defaultConfig : Config := ⟨2 ^ 20⟩

/-- `SetBufferSize(size int)`: panics when `size <= 0` (modelled as `none`,
leaving the stored default unchanged), otherwise stores `int32(size)`. -/
def SetBufferSize (size : Int) (_c : Config) : Option Config :=
  if size ≤ 0 then none else some ⟨int32Wrap size⟩

/-- `getBufferSize()`: `int(atomic.LoadInt32(&bufferSize))`; widening an
int32 to int is exact. -/
def getBufferSize (c : Config) : Int := c.bufferSize

/-- A bufconn.Listener: capacity fixed at creation, plus its closed flag. -/
structure Listener where
  capacity : Int
  closed : Bool
deriving DecidableEq, Repr

/-- The state of one `Server` value together with the embedded grpc.Server
and the background goroutine it may have spawned.  `onceDone` is the
sync.Once guard, `spawnCount` counts goroutine spawns, `loopRunning` says
the accept/dispatch loop is still executing, `serveDone`/`serveErr` are the
completion channel and the captured terminal error. -/
structure ServerState where
  listener : Listener
  grpcStopped : Bool
  onceDone : Bool
  spawnCount : Nat
  loopRunning : Bool
  serveDone : Bool
  serveErr : GoError
deriving DecidableEq, Repr

/-- `NewServer`: creates the bufconn listener with the current default buffer
size snapshot and an open (unfired) serveDone channel. -/
def NewServer (c : Config) : ServerState :=
  { listener := { capacity := getBufferSize c, closed := false }
    grpcStopped := false
    onceDone := false
    spawnCount := 0
    loopRunning := false
    serveDone := false
    serveErr := none }

/-- `Serve()`: `s.once.Do(spawn goroutine)` — spawns the accept/dispatch
goroutine iff the once guard has not fired; otherwise a no-op. -/
def Serve (s : ServerState) : ServerState :=
  if s.onceDone then s
  else { s with onceDone := true, spawnCount := s.spawnCount + 1, loopRunning := true }

/-- The background goroutine terminating: `s.serveErr = s.Server.Serve(...)`
followed by `close(s.serveDone)`.  Only possible while the loop runs. -/
def loopExit (e : GoError) (s : ServerState) : ServerState :=
  if s.loopRunning then { s with serveErr := e, serveDone := true, loopRunning := false }
  else s

/-- Outcome of a call to `Err()`: still blocked on `<-s.serveDone`, or
returned with the captured error. -/
inductive ErrResult where
  | blocked : ErrResult
  | returned : GoError → ErrResult
deriving DecidableEq, Repr

/-- `Err()`: blocks until the serveDone channel is closed, then returns the
captured `serveErr`. -/
def Err (s : ServerState) : ErrResult :=
  if s.serveDone then .returned s.serveErr else .blocked

/-- `s.Stop()` on the embedded grpc.Server: signals a graceful stop (the
accept loop will then return grpc.ErrServerStopped, a separate `loopExit`
event). -/
def Stop (s : ServerState) : ServerState := { s with grpcStopped := true }

/-- `s.listener.Close()`: marks the bufconn listener closed. -/
def closeListener (s : ServerState) : ServerState :=
  { s with listener := { s.listener with closed := true } }

/-- `Close()`: `s.Stop()` first, then `s.listener.Close()`. -/
def Close (s : ServerState) : ServerState := closeListener (Stop s)

/-- The externally triggerable events on a `Server`. -/
inductive Op where
  | serve : Op
  | loopExit : GoError → Op
  | stop : Op
  | closeL : Op
  | close : Op
deriving DecidableEq, Repr

/-- Effect of one event on the server state. -/
def applyOp (o : Op) (s : ServerState) : ServerState :=
  match o with
  | .serve => Serve s
  | .loopExit e => loopExit e s
  | .stop => Stop s
  | .closeL => closeListener s
  | .close => Close s

/-- A run of the state machine: the events in order. -/
def runOps (ops : List Op) (s : ServerState) : ServerState :=
  ops.foldl (fun t o => applyOp o t) s

/-- States reachable from some freshly constructed server. -/
def Reachable (s : ServerState) : Prop :=
  ∃ (c : Config) (ops : List Op), s = runOps ops (NewServer c)

/-- Internal consistency of a server state, preserved by every event. -/
def Inv (s : ServerState) : Prop :=
  s.spawnCount = (if s.onceDone then 1 else 0)
  ∧ (s.loopRunning = true → s.onceDone = true)
  ∧ (s.serveDone = true → s.onceDone = true ∧ s.loopRunning = false)

/-- Connectivity states of a grpc.ClientConn. -/
inductive ConnState where
  | idle : ConnState
  | connecting : ConnState
  | ready : ConnState
  | transientFailure : ConnState
  | shutdown : ConnState
deriving DecidableEq, Repr

/-- Context errors: context.DeadlineExceeded or context.Canceled. -/
inductive CtxErr where
  | deadlineExceeded : CtxErr
  | canceled : CtxErr
deriving DecidableEq, Repr

/-- A caller context: an optional deadline (absolute milliseconds) and
whether it has been cancelled. -/
structure Ctx where
  deadline : Option Nat
  canceled : Bool
deriving DecidableEq, Repr

/-- `context.Background()`: no deadline, never cancelled. -/
def backgroundCtx : Ctx := { deadline := none, canceled := false }

/-- Deadline of `context.WithTimeout(ctx, 5*time.Second)` taken at `start`
(milliseconds): 5000ms from the call's start, intersected with the caller's
deadline. -/
def connCtxDeadline (ctx : Ctx) (start : Nat) : Nat :=
  match ctx.deadline with
  | none => start + 5000
  | some d => min (start + 5000) d

/-- The error `connCtx.Err()` reports once the derived context is done:
Canceled when the caller cancelled, DeadlineExceeded when a deadline (the
caller's or the 5s timeout) fired. -/
def ctxDoneErr (ctx : Ctx) : CtxErr :=
  if ctx.canceled then .canceled else .deadlineExceeded

/-- Identity of a transport dialer: the factory's bufconn dialer or a
caller-supplied one. -/
inductive Dialer where
  | bufconn : Dialer
  | caller : Nat → Dialer
deriving DecidableEq, Repr

/-- grpc.DialOption values, by the connection field they set: transport
credentials (by id), a context dialer, or any other option (interceptors,
size limits, ...). -/
inductive DialOption where
  | withTransportCredentials : Nat → DialOption
  | withContextDialer : Dialer → DialOption
  | otherOption : Nat → DialOption
deriving DecidableEq, Repr

/-- Identity of `insecure.NewCredentials()`. -/
def insecureCreds : Nat := 0

/-- The option list `ClientConnContext` hands to grpc.NewClient:
`append([]{insecure creds}, opts...)` then `append(opts, bufconn dialer)`. -/
def buildDialOpts (opts : List DialOption) : List DialOption :=
  ([DialOption.withTransportCredentials insecureCreds] ++ opts)
    ++ [DialOption.withContextDialer Dialer.bufconn]

/-- The dialer an option sets, if any. -/
def dialerOf : DialOption → Option Dialer
  | .withContextDialer d => some d
  | _ => none

/-- The transport credentials an option sets, if any. -/
def credsOf : DialOption → Option Nat
  | .withTransportCredentials cr => some cr
  | _ => none

/-- grpc applies dial options left to right, each overwriting the field it
sets; `setterFold` computes the final value of one such field. -/
def setterFold (f : DialOption → Option α) (a : Option α) (l : List DialOption) : Option α :=
  l.foldl (fun acc o => match f o with | some x => some x | none => acc) a

/-- The dialer grpc.NewClient will actually invoke for the option list. -/
def effectiveDialer (l : List DialOption) : Option Dialer := setterFold dialerOf none l

/-- The transport credentials grpc.NewClient will actually use. -/
def effectiveCreds (l : List DialOption) : Option Nat := setterFold credsOf none l

/-- Whether an option is a context-dialer option. -/
def isCtxDialer (o : DialOption) : Bool :=
  match o with
  | .withContextDialer _ => true
  | _ => false

/-- The non-dialer options of a list, in order. -/
def nonDialerOpts (l : List DialOption) : List DialOption :=
  l.filter (fun o => !(isCtxDialer o))

/-- A client connection handle (identity only). -/
abbrev Conn := Nat

/-- The readiness loop of `ClientConnContext`: each element of the list is
one `conn.GetState()` observation; Ready returns the connection at once,
otherwise `conn.WaitForStateChange(connCtx, state)` either yields the next
observation or (when the list is exhausted before Ready) returns false and
the loop fails with `connCtx.Err()`. -/
def readyLoop (conn : Conn) (cErr : CtxErr) : List ConnState → Except CtxErr Conn
  | [] => .error cErr
  | st :: rest => if st = ConnState.ready then .ok conn else readyLoop conn cErr rest

/-- Outcome of ClientConn/ClientConnContext: a ready connection, a
grpc.NewClient construction error, or the bounding context's error. -/
inductive ConnResult where
  | ok : Conn → ConnResult
  | dialErr : GoErr → ConnResult
  | ctxFail : CtxErr → ConnResult
deriving DecidableEq, Repr

/-- Side effects `ClientConnContext` performs on the connection. -/
inductive Action where
  | newClient : List DialOption → Action
  | connect : Action
  | closeConn : Conn → Action
deriving DecidableEq, Repr

/-- Environment a ClientConnContext call runs against: whether
grpc.NewClient fails, the identity of the connection it returns, and the
connectivity states the readiness loop observes. -/
structure ConnEnv where
  newClientErr : Option GoErr
  connId : Conn
  states : List ConnState
deriving DecidableEq, Repr

/-- `ClientConnContext(ctx, opts...)`: prepend the insecure credentials,
append the bufconn context dialer, build the client (may fail), drive it out
of idle with `conn.Connect()`, then run the readiness loop bounded by
`context.WithTimeout(ctx, 5s)`.  Returns the outcome and the actions
performed on the connection. -/
def ClientConnContext (ctx : Ctx) (opts : List DialOption) (env : ConnEnv) :
    ConnResult × List Action :=
  let allOpts := buildDialOpts opts
  match env.newClientErr with
  | some e => (.dialErr e, [Action.newClient allOpts])
  | none =>
    match readyLoop env.connId (ctxDoneErr ctx) env.states with
    | .ok cn => (.ok cn, [Action.newClient allOpts, Action.connect])
    | .error e => (.ctxFail e, [Action.newClient allOpts, Action.connect])

/-- `ClientConn(opts...)`: delegates to `ClientConnContext` with
`context.Background()`. -/
def ClientConn (opts : List DialOption) (env : ConnEnv) : ConnResult × List Action :=
  ClientConnContext backgroundCtx opts env

/-! Helper lemmas about the server state machine. -/

theorem inv_new (c : Config) : Inv (NewServer c) := by
  simp [Inv, NewServer]

theorem inv_apply (o : Op) (s : ServerState) (h : Inv s) : Inv (applyOp o s) := by
  obtain ⟨h1, h2, h3⟩ := h
  cases o with
  | serve =>
    simp only [applyOp, Serve]
    by_cases hd : s.onceDone <;> simp_all [Inv]
  | loopExit e =>
    simp only [applyOp, loopExit]
    by_cases hr : s.loopRunning <;> simp_all [Inv]
  | stop => simpa [applyOp, Stop, Inv] using ⟨h1, h2, h3⟩
  | closeL => simpa [applyOp, closeListener, Inv] using ⟨h1, h2, h3⟩
  | close => simpa [applyOp, Close, closeListener, Stop, Inv] using ⟨h1, h2, h3⟩

theorem inv_runOps (ops : List Op) (s : ServerState) (h : Inv s) : Inv (runOps ops s) := by
  induction ops generalizing s with
  | nil => simpa [runOps] using h
  | cons o rest ih =>
    simpa [runOps, List.foldl_cons] using ih (applyOp o s) (inv_apply o s h)

theorem reachable_inv (s : ServerState) (h : Reachable s) : Inv s := by
  obtain ⟨c, ops, rfl⟩ := h
  exact inv_runOps ops (NewServer c) (inv_new c)

theorem onceDone_mono (o : Op) (s : ServerState) (h : s.onceDone = true) :
    (applyOp o s).onceDone = true := by
  cases o with
  | serve => simp [applyOp, Serve, h]
  | loopExit e =>
    simp only [applyOp, loopExit]
    split <;> simp [h]
  | stop => simp [applyOp, Stop, h]
  | closeL => simp [applyOp, closeListener, h]
  | close => simp [applyOp, Close, closeListener, Stop, h]

theorem runOps_onceDone_mono (ops : List Op) (s : ServerState) (h : s.onceDone = true) :
    (runOps ops s).onceDone = true := by
  induction ops generalizing s with
  | nil => simpa [runOps] using h
  | cons o rest ih =>
    simpa [runOps, List.foldl_cons] using ih (applyOp o s) (onceDone_mono o s h)

theorem runOps_onceDone_of_mem (ops : List Op) (s : ServerState) (h : Op.serve ∈ ops) :
    (runOps ops s).onceDone = true := by
  induction ops generalizing s with
  | nil => cases h
  | cons o rest ih =>
    rcases List.mem_cons.mp h with h0 | h0
    · subst h0
      have hs : (applyOp Op.serve s).onceDone = true := by
        simp only [applyOp, Serve]
        split <;> simp_all
      simpa [runOps, List.foldl_cons] using runOps_onceDone_mono rest _ hs
    · simpa [runOps, List.foldl_cons] using ih (applyOp o s) h0

theorem done_frame (o : Op) (s : ServerState) (hinv : Inv s) (h : s.serveDone = true) :
    (applyOp o s).serveDone = true ∧ (applyOp o s).serveErr = s.serveErr := by
  obtain ⟨h1, h2, h3⟩ := hinv
  obtain ⟨hod, hlr⟩ := h3 h
  cases o with
  | serve => simp [applyOp, Serve, hod, h]
  | loopExit e => simp [applyOp, loopExit, hlr, h]
  | stop => simp [applyOp, Stop, h]
  | closeL => simp [applyOp, closeListener, h]
  | close => simp [applyOp, Close, closeListener, Stop, h]

theorem runOps_done_frame (ops : List Op) (s : ServerState) (hinv : Inv s)
    (h : s.serveDone = true) :
    (runOps ops s).serveDone = true ∧ (runOps ops s).serveErr = s.serveErr := by
  induction ops generalizing s with
  | nil => simp [runOps, h]
  | cons o rest ih =>
    obtain ⟨hd, he⟩ := done_frame o s hinv h
    have := ih (applyOp o s) (inv_apply o s hinv) hd
    simpa [runOps, List.foldl_cons, he] using this

theorem capacity_frame (o : Op) (s : ServerState) :
    (applyOp o s).listener.capacity = s.listener.capacity := by
  cases o <;> simp [applyOp, Serve, loopExit, Stop, closeListener, Close] <;> split <;> rfl

theorem runOps_capacity_frame (ops : List Op) (s : ServerState) :
    (runOps ops s).listener.capacity = s.listener.capacity := by
  induction ops generalizing s with
  | nil => simp [runOps]
  | cons o rest ih =>
    simpa [runOps, List.foldl_cons, capacity_frame o s] using ih (applyOp o s)

theorem noServe_frame (o : Op) (s : ServerState) (ho : o ≠ Op.serve)
    (h : s.onceDone = false ∧ s.loopRunning = false ∧ s.serveDone = false
      ∧ s.spawnCount = 0) :
    (applyOp o s).onceDone = false ∧ (applyOp o s).loopRunning = false
      ∧ (applyOp o s).serveDone = false ∧ (applyOp o s).spawnCount = 0 := by
  obtain ⟨h1, h2, h3, h4⟩ := h
  cases o with
  | serve => exact absurd rfl ho
  | loopExit e => simp [applyOp, loopExit, h1, h2, h3, h4]
  | stop => simp [applyOp, Stop, h1, h2, h3, h4]
  | closeL => simp [applyOp, closeListener, h1, h2, h3, h4]
  | close => simp [applyOp, Close, closeListener, Stop, h1, h2, h3, h4]

theorem runOps_noServe (ops : List Op) (s : ServerState) (ho : ∀ o ∈ ops, o ≠ Op.serve)
    (h : s.onceDone = false ∧ s.loopRunning = false ∧ s.serveDone = false
      ∧ s.spawnCount = 0) :
    (runOps ops s).onceDone = false ∧ (runOps ops s).loopRunning = false
      ∧ (runOps ops s).serveDone = false ∧ (runOps ops s).spawnCount = 0 := by
  induction ops generalizing s with
  | nil => simpa [runOps] using h
  | cons o rest ih =>
    have h0 := noServe_frame o s (ho o (List.mem_cons_self o rest)) h
    have := ih (applyOp o s) (fun o' h' => ho o' (List.mem_cons_of_mem o h')) h0
    simpa [runOps, List.foldl_cons] using this

/-! Helper lemmas about dial-option folds. -/

theorem setterFold_some {α : Type} (f : DialOption → Option α) (l : List DialOption)
    (a : Option α) (x : α) (h : setterFold f none l = some x) :
    setterFold f a l = some x := by
  induction l generalizing a with
  | nil => simp [setterFold] at h
  | cons o rest ih =>
    simp only [setterFold, List.foldl_cons] at h ⊢
    cases hf : f o with
    | some y => simpa [hf] using by simpa [hf] using h
    | none =>
      simp only [hf] at h ⊢
      exact ih a h

theorem setterFold_append {α : Type} (f : DialOption → Option α) (a : Option α)
    (l₁ l₂ : List DialOption) :
    setterFold f a (l₁ ++ l₂) = setterFold f (setterFold f a l₁) l₂ := by
  simp [setterFold, List.foldl_append]

/-! Claim theorems. -/

/-- Claim C1: every run of Serve() calls (any interleaving, any number N ≥ 1
of calls) spawns the accept/dispatch goroutine exactly once; a run never
spawns more than once; and every Serve() call after the first is a no-op
(Serve is total in the model, so each call returns normally, without
error). -/
theorem C1_serve_spawns_once (c : Config) (ops : List Op) (s : ServerState) :
    (Op.serve ∈ ops → (runOps ops (NewServer c)).spawnCount = 1)
    ∧ (runOps ops (NewServer c)).spawnCount ≤ 1
    ∧ Serve (Serve s) = Serve s := by
  have hinv := inv_runOps ops (NewServer c) (inv_new c)
  obtain ⟨h1, _, _⟩ := hinv
  refine ⟨fun hmem => ?_, ?_, ?_⟩
  · rw [h1, runOps_onceDone_of_mem ops (NewServer c) hmem]
    simp
  · rw [h1]; split <;> simp
  · simp only [Serve]
    by_cases hd : s.onceDone <;> simp [hd]

/-- Claim C1 witness: three Serve() calls on a fresh server spawn exactly
one goroutine. -/
theorem C1_witness :
    (runOps [Op.serve, Op.serve, Op.serve] (NewServer defaultConfig)).spawnCount = 1 :=
  (C1_serve_spawns_once defaultConfig [Op.serve, Op.serve, Op.serve]
    (NewServer defaultConfig)).1 (by decide)

/-- Claim C4: Err() blocks exactly until the serveDone channel has fired;
when the accept/dispatch loop terminates with error e, Err() returns exactly
e; and once the signal has fired on a reachable state, every later event
preserves the captured terminal error, so every concurrent Err() caller
returns the same value. -/
theorem C4_err_semantics (s : ServerState) (e : GoError) (ops : List Op) :
    (Err s = ErrResult.blocked ↔ s.serveDone = false)
    ∧ (s.loopRunning = true → Err (loopExit e s) = ErrResult.returned e)
    ∧ (Reachable s → s.serveDone = true →
        Err (runOps ops s) = ErrResult.returned s.serveErr) := by
  refine ⟨?_, fun hr => ?_, fun hreach hdone => ?_⟩
  · simp only [Err]
    by_cases hd : s.serveDone <;> simp [hd]
  · simp [Err, loopExit, hr]
  · obtain ⟨hd, he⟩ := runOps_done_frame ops s (reachable_inv s hreach) hdone
    simp [Err, hd, he]

/-- Claim C4 witness: on a server that served and whose loop exited with the
server-stopped sentinel, Err() returns that sentinel after further events. -/
theorem C4_witness :
    Err (runOps [Op.close]
        (runOps [Op.serve, Op.loopExit (some GoErr.serverStopped)] (NewServer defaultConfig)))
      = ErrResult.returned (some GoErr.serverStopped) := by
  have h := (C4_err_semantics
    (runOps [Op.serve, Op.loopExit (some GoErr.serverStopped)] (NewServer defaultConfig))
    none [Op.close]).2.2
    ⟨defaultConfig, [Op.serve, Op.loopExit (some GoErr.serverStopped)], rfl⟩ (by decide)
  simpa using h

/-- Claim C6: the listener capacity is snapshotted from the configuration at
NewServer time; Serve() leaves the listener untouched (it is created at
construction, not at start); no event ever changes the capacity; and a
SetBufferSize call after construction leaves an existing server's capacity
unchanged while a server constructed afterward gets the new value. -/
theorem C6_capacity_fixed (c c' : Config) (sz : Int) (ops : List Op) (s : ServerState)
    (o : Op) :
    (NewServer c).listener.capacity = getBufferSize c
    ∧ (Serve s).listener = s.listener
    ∧ (applyOp o s).listener.capacity = s.listener.capacity
    ∧ (runOps ops (NewServer c)).listener.capacity = getBufferSize c
    ∧ (SetBufferSize sz c = some c' →
        (runOps ops (NewServer c)).listener.capacity = getBufferSize c
        ∧ (NewServer c').listener.capacity = getBufferSize c') := by
  refine ⟨rfl, ?_, capacity_frame o s, ?_, fun _ => ⟨?_, rfl⟩⟩
  · simp only [Serve]
    by_cases hd : s.onceDone <;> simp [hd]
  · exact runOps_capacity_frame ops (NewServer c)
  · exact runOps_capacity_frame ops (NewServer c)

/-- Claim C6 witness: a server built before SetBufferSize(42) keeps its 1 MiB
capacity across a full lifecycle while a server built after has capacity
42. -/
theorem C6_witness :
    (runOps [Op.serve, Op.close, Op.loopExit (some GoErr.serverStopped)]
        (NewServer defaultConfig)).listener.capacity = getBufferSize defaultConfig
    ∧ (NewServer ⟨42⟩).listener.capacity = getBufferSize ⟨42⟩ :=
  (C6_capacity_fixed defaultConfig ⟨42⟩ 42
    [Op.serve, Op.close, Op.loopExit (some GoErr.serverStopped)]
    (NewServer defaultConfig) Op.stop).2.2.2.2 (by decide)

/-- Claim C7: Close() is the composition "Stop the grpc server, then close
the listener" in that order — after the first effect alone the listener is
still in its prior state; after Close() the stop has been signalled and the
listener is closed; Close() on a never-served server proceeds normally
(total, no spawn, no completion signal); and when the loop was running,
the graceful termination it triggers unblocks Err() with the sentinel. -/
theorem C7_close_order (s : ServerState) (c : Config) :
    Close s = closeListener (Stop s)
    ∧ (Stop s).listener = s.listener
    ∧ (Close s).grpcStopped = true
    ∧ (Close s).listener.closed = true
    ∧ (Close (NewServer c)).spawnCount = 0
    ∧ (Close (NewServer c)).serveDone = false
    ∧ (s.loopRunning = true →
        Err (loopExit (some GoErr.serverStopped) (Close s))
          = ErrResult.returned (some GoErr.serverStopped)) := by
  refine ⟨rfl, rfl, rfl, rfl, rfl, rfl, fun hr => ?_⟩
  simp [Err, loopExit, Close, closeListener, Stop, hr]

/-- Claim C7 witness: on a served server, Close() followed by the loop's
graceful exit makes Err() return the server-stopped sentinel. -/
theorem C7_witness :
    Err (loopExit (some GoErr.serverStopped) (Close (Serve (NewServer defaultConfig))))
      = ErrResult.returned (some GoErr.serverStopped) :=
  (C7_close_order (Serve (NewServer defaultConfig)) defaultConfig).2.2.2.2.2.2 (by decide)

/-- Claim C8: on a server whose Serve() is never invoked, no sequence of
other events (Stop, Close, listener close, loop-exit attempts) ever fires
the completion signal, so Err() stays blocked forever, and no goroutine is
ever spawned. -/
theorem C8_err_blocks_forever (c : Config) (ops : List Op)
    (h : ∀ o ∈ ops, o ≠ Op.serve) :
    (runOps ops (NewServer c)).serveDone = false
    ∧ Err (runOps ops (NewServer c)) = ErrResult.blocked
    ∧ (runOps ops (NewServer c)).spawnCount = 0 := by
  obtain ⟨_, _, h3, h4⟩ := runOps_noServe ops (NewServer c) h (by simp [NewServer])
  exact ⟨h3, by simp [Err, h3], h4⟩

/-- Claim C8 witness: Close, Stop, a loop-exit attempt and a listener close
on a never-served server leave Err() blocked. -/
theorem C8_witness :
    Err (runOps [Op.close, Op.stop, Op.loopExit none, Op.closeL]
        (NewServer defaultConfig)) = ErrResult.blocked :=
  (C8_err_blocks_forever defaultConfig [Op.close, Op.stop, Op.loopExit none, Op.closeL]
    (by decide)).2.1

/-- Claim C2: the option list handed to grpc.NewClient is exactly the
insecure credentials, then the caller's options in order, then the bufconn
context dialer; since grpc applies options left to right with the last
setter of a field winning, the invoked dialer is always the bufconn one, a
caller-supplied dialer is never the one invoked, the caller's non-dialer
options all survive in order, and the caller's credentials (the last set)
still take effect. -/
theorem C2_dialer_immunity (opts : List DialOption) :
    buildDialOpts opts
      = DialOption.withTransportCredentials insecureCreds
          :: (opts ++ [DialOption.withContextDialer Dialer.bufconn])
    ∧ effectiveDialer (buildDialOpts opts) = some Dialer.bufconn
    ∧ (∀ d : Dialer, d ≠ Dialer.bufconn → effectiveDialer (buildDialOpts opts) ≠ some d)
    ∧ nonDialerOpts (buildDialOpts opts)
        = DialOption.withTransportCredentials insecureCreds :: nonDialerOpts opts
    ∧ (∀ cr : Nat, effectiveCreds opts = some cr →
        effectiveCreds (buildDialOpts opts) = some cr) := by
  have hd : effectiveDialer (buildDialOpts opts) = some Dialer.bufconn := by
    unfold effectiveDialer buildDialOpts
    rw [setterFold_append]
    simp [setterFold, dialerOf]
  refine ⟨by simp [buildDialOpts], hd, ?_, ?_, ?_⟩
  · intro d hne hcontra
    rw [hd] at hcontra
    exact hne (Option.some.inj hcontra).symm
  · simp [nonDialerOpts, buildDialOpts, List.filter_append, isCtxDialer]
  · intro cr h
    unfold effectiveCreds buildDialOpts
    rw [setterFold_append, setterFold_append]
    have h1 : setterFold credsOf none [DialOption.withTransportCredentials insecureCreds]
        = some insecureCreds := by simp [setterFold, credsOf]
    rw [h1]
    rw [setterFold_some credsOf opts (some insecureCreds) cr h]
    simp [setterFold, credsOf]

/-- Claim C2 witness: with a caller dialer, caller credentials and another
caller option, the invoked dialer is still the bufconn one (not the
caller's) and the caller's credentials take effect. -/
theorem C2_witness :
    effectiveDialer (buildDialOpts [DialOption.withContextDialer (Dialer.caller 7),
        DialOption.withTransportCredentials 3, DialOption.otherOption 5])
      = some Dialer.bufconn
    ∧ effectiveDialer (buildDialOpts [DialOption.withContextDialer (Dialer.caller 7),
        DialOption.withTransportCredentials 3, DialOption.otherOption 5])
      ≠ some (Dialer.caller 7)
    ∧ effectiveCreds (buildDialOpts [DialOption.withContextDialer (Dialer.caller 7),
        DialOption.withTransportCredentials 3, DialOption.otherOption 5])
      = some 3 :=
  ⟨(C2_dialer_immunity [DialOption.withContextDialer (Dialer.caller 7),
      DialOption.withTransportCredentials 3, DialOption.otherOption 5]).2.1,
   (C2_dialer_immunity [DialOption.withContextDialer (Dialer.caller 7),
      DialOption.withTransportCredentials 3, DialOption.otherOption 5]).2.2.1
      (Dialer.caller 7) (by decide),
   (C2_dialer_immunity [DialOption.withContextDialer (Dialer.caller 7),
      DialOption.withTransportCredentials 3, DialOption.otherOption 5]).2.2.2.2
      3 (by decide)⟩

/-- Claim C3 helper: the readiness loop returns the connection with a nil
error as soon as Ready is among the observed states. -/
theorem readyLoop_mem (conn : Conn) (cErr : CtxErr) (seq : List ConnState)
    (h : ConnState.ready ∈ seq) : readyLoop conn cErr seq = Except.ok conn := by
  induction seq with
  | nil => cases h
  | cons st rest ih =>
    by_cases hst : st = ConnState.ready
    · simp [readyLoop, hst]
    · rcases List.mem_cons.mp h with h0 | h0
      · exact absurd h0.symm hst
      · simp [readyLoop, hst, ih h0]

/-- Claim C3 helper: when Ready is never observed before the wait gives up,
the loop fails with exactly the bounding context's error. -/
theorem readyLoop_not_mem (conn : Conn) (cErr : CtxErr) (seq : List ConnState)
    (h : ConnState.ready ∉ seq) : readyLoop conn cErr seq = Except.error cErr := by
  induction seq with
  | nil => rfl
  | cons st rest ih =>
    have hst : st ≠ ConnState.ready := fun he => h (he ▸ List.mem_cons_self st rest)
    have hrest : ConnState.ready ∉ rest := fun hm => h (List.mem_cons_of_mem st hm)
    simp [readyLoop, hst, ih hrest]

/-- Claim C3: the readiness loop returns the connection and a nil error as
soon as Ready is observed; if the wait gives up before Ready is ever
observed it returns exactly the bounding context's error (a failure value,
never a panic — every run ends in one of the two outcomes); and the bound
of the wait is the earlier of 5 seconds from the call's start and the
caller's deadline (just 5 seconds for a deadline-free context). -/
theorem C3_readiness (conn : Conn) (cErr : CtxErr) (seq : List ConnState) (d start : Nat) :
    (ConnState.ready ∈ seq → readyLoop conn cErr seq = Except.ok conn)
    ∧ (ConnState.ready ∉ seq → readyLoop conn cErr seq = Except.error cErr)
    ∧ ((∃ cn, readyLoop conn cErr seq = Except.ok cn)
        ∨ readyLoop conn cErr seq = Except.error cErr)
    ∧ connCtxDeadline ⟨some d, false⟩ start = min (start + 5000) d
    ∧ connCtxDeadline backgroundCtx start = start + 5000 := by
  refine ⟨readyLoop_mem conn cErr seq, readyLoop_not_mem conn cErr seq, ?_, rfl, rfl⟩
  by_cases h : ConnState.ready ∈ seq
  · exact Or.inl ⟨conn, readyLoop_mem conn cErr seq h⟩
  · exact Or.inr (readyLoop_not_mem conn cErr seq h)

/-- Claim C3 witness: a run that reaches Ready returns the connection; a run
that never does returns the context's error. -/
theorem C3_witness :
    readyLoop 7 CtxErr.canceled [ConnState.connecting, ConnState.ready] = Except.ok 7
    ∧ readyLoop 7 CtxErr.deadlineExceeded [ConnState.idle, ConnState.connecting]
        = Except.error CtxErr.deadlineExceeded :=
  ⟨(C3_readiness 7 CtxErr.canceled [ConnState.connecting, ConnState.ready] 0 0).1
      (by decide),
   (C3_readiness 7 CtxErr.deadlineExceeded [ConnState.idle, ConnState.connecting] 0 0).2.1
      (by decide)⟩

/-- Claim C5 counterexample: SetBufferSize stores `int32(size)`, so the
positive size 2^31 is accepted but wraps to -2^31; the stored default then
read back does not equal size, refuting the claim as stated at size = 2^31
(on the 64-bit int of the source's platforms). -/
theorem C5_counterexample :
    ¬ ∃ c' : Config, SetBufferSize (2 ^ 31) defaultConfig = some c'
      ∧ getBufferSize c' = 2 ^ 31 := by
  rintro ⟨c', h1, h2⟩
  have he : SetBufferSize (2 ^ 31) defaultConfig = some ⟨-(2 ^ 31)⟩ := by decide
  rw [he] at h1
  obtain rfl := Option.some.inj h1
  exact absurd h2 (by decide)

/-- Claim C5 (amended): for every size with 0 < size < 2^31 the call does
not panic and the stored default read back equals size exactly; for every
size ≤ 0 the call panics (modelled as `none`), leaving the stored default
unmodified.  (Sizes ≥ 2^31 are accepted but truncated by the int32
conversion, which is what forces the upper bound.) -/
theorem C5_amended (c : Config) (size : Int) :
    (0 < size → size < 2 ^ 31 →
      SetBufferSize size c = some ⟨size⟩ ∧ getBufferSize ⟨size⟩ = size)
    ∧ (size ≤ 0 → SetBufferSize size c = none) := by
  constructor
  · intro h1 h2
    have hns : ¬ size ≤ 0 := not_le.mpr h1
    refine ⟨?_, rfl⟩
    have hwrap : int32Wrap size = size := by
      unfold int32Wrap
      have hlow : (0 : Int) ≤ size + 2 ^ 31 := by linarith
      have hhigh : size + 2 ^ 31 < 2 ^ 32 := by
        have h32 : (2 : Int) ^ 31 + 2 ^ 31 = 2 ^ 32 := by norm_num
        linarith
      rw [Int.emod_eq_of_lt hlow hhigh]
      ring
    simp [SetBufferSize, hns, hwrap]
  · intro h
    simp [SetBufferSize, h]

/-- Claim C5 witness: size 4096 round-trips exactly; size -3 panics. -/
theorem C5_witness :
    (SetBufferSize 4096 defaultConfig = some ⟨4096⟩ ∧ getBufferSize ⟨4096⟩ = 4096)
    ∧ SetBufferSize (-3) defaultConfig = none :=
  ⟨(C5_amended defaultConfig 4096).1 (by norm_num) (by norm_num),
   (C5_amended defaultConfig (-3)).2 (by norm_num)⟩

/-- Claim C9: ClientConn(opts) is exactly ClientConnContext with the
background context, which has no deadline and is never cancelled, so the
readiness wait is bounded only by the fixed 5-second timeout (and a timeout
there reports deadline-exceeded). -/
theorem C9_clientConn_background (opts : List DialOption) (env : ConnEnv) (start : Nat) :
    ClientConn opts env = ClientConnContext backgroundCtx opts env
    ∧ backgroundCtx.deadline = none
    ∧ backgroundCtx.canceled = false
    ∧ connCtxDeadline backgroundCtx start = start + 5000
    ∧ ctxDoneErr backgroundCtx = CtxErr.deadlineExceeded :=
  ⟨rfl, rfl, rfl, rfl, rfl⟩

/-- Claim C10: whenever ClientConnContext fails in the readiness wait (a
context-error outcome), the connection it had built and driven out of idle
(the connect action was performed) is never closed before returning — no
close action appears among the call's effects. -/
theorem C10_error_path_no_close (ctx : Ctx) (opts : List DialOption) (env : ConnEnv)
    (e : CtxErr) (h : (ClientConnContext ctx opts env).1 = ConnResult.ctxFail e) :
    Action.connect ∈ (ClientConnContext ctx opts env).2
    ∧ ∀ cn : Conn, Action.closeConn cn ∉ (ClientConnContext ctx opts env).2 := by
  unfold ClientConnContext at h ⊢
  cases hne : env.newClientErr with
  | some e' => simp [hne] at h
  | none =>
    cases hr : readyLoop env.connId (ctxDoneErr ctx) env.states with
    | ok cn => simp [hne, hr] at h
    | error e' => simp [hne, hr]

/-- Claim C10 witness: a call that times out waiting for readiness performed
the connect action and no close action. -/
theorem C10_witness :
    Action.connect ∈ (ClientConnContext backgroundCtx []
        ⟨none, 0, [ConnState.connecting]⟩).2
    ∧ Action.closeConn 0 ∉ (ClientConnContext backgroundCtx []
        ⟨none, 0, [ConnState.connecting]⟩).2 :=
  ⟨(C10_error_path_no_close backgroundCtx [] ⟨none, 0, [ConnState.connecting]⟩
      CtxErr.deadlineExceeded (by decide)).1,
   (C10_error_path_no_close backgroundCtx [] ⟨none, 0, [ConnState.connecting]⟩
      CtxErr.deadlineExceeded (by decide)).2 0⟩

end Grpctest
